import Mathlib

/-
Verification of the SQLite-to-xlsx converter (`sqlite_to_xlsx_converter.py`)
against its natural-language specification.

The Python program has a single source file with two components:

* `ConverterWindow` (GUI shell) — only `set_save_path`, the destination-path
  derivation, is behaviourally relevant and is embedded below.
* `Converter` (worker thread) — `run`, `stop`/`stopped`, `create_connection`,
  `select_table`, `write_table_to_workbook` are embedded below.

Modelling conventions:

* SQLite cell values are an inductive `Cell` (REAL values never appear in any
  property below and are left out of the model).
* A source database is a list of `Table`s in `sqlite_master` catalog order.
* The behaviour of the external libraries is modelled from their documented
  semantics where a claim depends on it: `sqlite3.connect` (lazy open: it
  succeeds on a missing-but-creatable path and never validates file content),
  the SQLite tokenizer's treatment of single-quoted literals (a quote inside
  a literal must be doubled), and `xlsxwriter`'s `add_worksheet` name checks
  (31-char limit, forbidden characters, case-insensitive duplicate check,
  auto-generated name for an empty string).
* The worker's side effects (Qt signal emissions, worksheet writes,
  `workbook.close()`, `sys.exit()`) are recorded as an explicit event trace.
  `workbook.close()` on a workbook with no worksheets adds one default blank
  sheet (`Sheet1`), as `xlsxwriter` does.
* Python's float expression `i / N * 100` fed to the int-typed Qt signal is
  modelled exactly: `/` and `*` are IEEE-754 binary64 operations with
  round-to-nearest-even (implemented over `Nat` mantissas in `rnRat`), and
  the signal conversion truncates.  So for example `29 / 100 * 100` is
  `28.999999999999996` and the emitted value is `28`.
* Python's `str.lower` (used by `xlsxwriter`'s case-insensitive duplicate
  sheet-name check) is modelled over the Basic Latin and Latin-1 ranges
  (code points below 0x100); every name in this development stays in range.
* Exceptions are modelled with `Except`; an uncaught exception in `run`
  abandons the workbook object, so a failing call is recorded as an error
  outcome and the in-memory cells written before the raise are dropped.
-/

set_option maxRecDepth 8000

deriving instance DecidableEq for Except

namespace SQLite2Excel

/-- Scalar cell values as returned by the sqlite3 driver. -/
inductive Cell where
  | null
  | int (i : Int)
  | text (s : String)
  | blob (b : List Nat)
deriving DecidableEq

/-- One table of the source database: its name, its column names in
declaration order, and its data rows. -/
structure Table where
  name : String
  cols : List String
  rows : List (List Cell)
deriving DecidableEq

/-- The single-quote character (code point 39). -/
def squote : Char := Char.ofNat 39

/-- Error kinds that the embedded operations can raise. -/
inductive ConvError where
  | sqlSyntax
  | tableNotFound
  | indexError
  | invalidSheetName
  | duplicateSheetName
deriving DecidableEq

/-! ### Destination path derivation (`ConverterWindow.set_save_path`) -/

/-- Python `isinstance(x, list)` applied to `file_path.split(".")[-1]`.  The
indexed element of `str.split` is always a `str`, never a `list`, so this
test is always `False`; it is kept as a definition so the embedded
`set_save_path` mirrors the source line by line. -/
def isinstanceList (s : String) : Bool := false

/-- Embedding of `ConverterWindow.set_save_path` (source lines 77-92).
`check_extension = file_path.split(".")[-1]`; `extension` is
`check_extension` when `isinstance(check_extension, list)` holds and `None`
otherwise; `None` is not a member of the extension list, so the recognised
branch strips the extension length and appends `"xlsx"`, and the other
branch appends `".xlsx"` to the whole path. -/
def set_save_path (file_path : String) : String :=
  let check_extension := (file_path.splitOn ".").getLastD ""
  let extension : Option String :=
    if isinstanceList check_extension then some check_extension else none
  match extension with
  | some ext =>
    if ext ∈ ["db", "sqlite", "sqlite3", "db3"] then
      (file_path.take (file_path.length - ext.length)) ++ "xlsx"
    else
      file_path ++ ".xlsx"
  | none => file_path ++ ".xlsx"

/-! ### Source connection (`Converter.create_connection`) -/

/-- Abstract state of the file system at the source path. -/
structure FileSys where
  fileExists : Bool
  readable : Bool
  dirWritable : Bool
  validDatabase : Bool
deriving DecidableEq

/-- Driver-level connection error. -/
inductive SqliteErr where
  | cannotOpen
deriving DecidableEq

/-- An open driver connection. -/
structure Connection where
  opened : Bool
deriving DecidableEq

/-- Modelled from the documented semantics of `sqlite3.connect`: the driver
opens (or lazily creates) the file at the path; it raises only when the OS
open fails — an existing unreadable file, or a missing file in an
unwritable directory.  A missing file in a writable directory is created,
and the content is never validated at connect time. -/
def sqliteConnect (fs : FileSys) : Except SqliteErr Connection :=
  if (if fs.fileExists then fs.readable else fs.dirWritable) then .ok ⟨true⟩
  else .error .cannotOpen

/-- Embedding of `Converter.create_connection` (source lines 222-238): calls
`sqlite3.connect`; on a driver error it prints and falls through, returning
`None` — the exception is swallowed, not re-raised. -/
def create_connection (fs : FileSys) : Option Connection :=
  match sqliteConnect fs with
  | .ok conn => some conn
  | .error _ => none

/-! ### Query construction and the SQLite quoted-literal grammar
(`Converter.select_table`, source line 252) -/

/-- Embedding of `"SELECT * FROM '{}'".format(table)`: the table name is
spliced between two single quotes with no escaping. -/
def mkSelectQuery (table : String) : String :=
  "SELECT * FROM " ++ String.singleton squote ++ table ++ String.singleton squote

/-- Modelled from the SQLite tokenizer: scan the remainder of a
single-quoted literal.  A doubled quote stands for one literal quote; the
literal must be closed by a final quote that ends the input (the embedded
query has nothing after the closing quote), otherwise the query is a syntax
error. -/
def scanQuoted : List Char → Option (List Char)
  | [] => none
  | c :: rest =>
    if c = squote then
      match rest with
      | [] => some []
      | c2 :: rest2 =>
        if c2 = squote then (scanQuoted rest2).map (fun t => squote :: t)
        else none
    else (scanQuoted rest).map (fun t => c :: t)

/-- Parse one complete single-quoted literal: an opening quote followed by a
quoted scan of the rest. -/
def parseSingleQuoted (l : List Char) : Option (List Char) :=
  match l with
  | [] => none
  | c :: rest => if c = squote then scanQuoted rest else none

/-- Drop an expected fixed keyword sequence from the head of a character list. -/
def dropKeyword : List Char → List Char → Option (List Char)
  | [], rest => some rest
  | _ :: _, [] => none
  | p :: ps, c :: cs => if c = p then dropKeyword ps cs else none

/-- Character list of the fixed query head. -/
def sqlSelectHead : List Char := "SELECT * FROM ".data

/-- Modelled from the SQLite parser as far as the embedded query shape needs:
a query `SELECT * FROM <quoted>` is accepted exactly when `<quoted>` is one
well-formed single-quoted literal spanning the rest of the query, and it
scans the table whose name is the literal's content (doubled quotes
collapsed).  Returns that name, or `none` for a syntax error. -/
def parseQuery (q : String) : Option String :=
  match dropKeyword sqlSelectHead q.data with
  | none => none
  | some rest => (parseSingleQuoted rest).map String.mk

/-- Row set produced by `select_table`'s cursor logic (source lines 254-258):
`cur.fetchall()` gives the data rows, `cur.description` gives the column
names in result order, and the column-name list is inserted at position 0. -/
def selectRows (t : Table) : List (List Cell) :=
  (t.cols.map Cell.text) :: t.rows

/-- Embedding of `Converter.select_table` (source lines 240-260): format the
query with the raw table name, let the engine parse it (a malformed literal
is an `sqlite3.OperationalError`), scan the named table and return the rows
with the header prepended. -/
def select_table (db : List Table) (name : String) : Except ConvError (List (List Cell)) :=
  match parseQuery (mkSelectQuery name) with
  | none => .error .sqlSyntax
  | some tname =>
    match db.find? (fun t => t.name = tname) with
    | some t => .ok (selectRows t)
    | none => .error .tableNotFound

/-! ### Workbook model and `Converter.write_table_to_workbook` -/

/-- One worksheet: its final name and the cells written to it, as
`(row, column, value)` triples in write order. -/
structure Worksheet where
  name : String
  cells : List (Nat × Nat × Cell)
deriving DecidableEq

/-- The destination workbook: its worksheets in creation order. -/
structure Workbook where
  sheets : List Worksheet
deriving DecidableEq

/-- Characters that `xlsxwriter` rejects in a sheet name:
`[`, `]`, `:`, `*`, `?`, `/` and the backslash (code 92). -/
def invalidSheetChars : List Char :=
  ['[', ']', ':', '*', '?', '/', Char.ofNat 92]

/-- Python `str.lower` on one character, for the Basic Latin and Latin-1
ranges (code points below 0x100): `A`-`Z` map down by 32, and so do
`À` (0xC0) through `Þ` (0xDE) except the multiplication sign `×` (0xD7);
every other such character (including `ß`, `µ`, `÷`) maps to itself. -/
def pyToLowerChar (c : Char) : Char :=
  if 65 ≤ c.toNat ∧ c.toNat ≤ 90 then Char.ofNat (c.toNat + 32)
  else if 192 ≤ c.toNat ∧ c.toNat ≤ 222 ∧ c.toNat ≠ 215 then Char.ofNat (c.toNat + 32)
  else c

/-- Python `str.lower`, mapped over the character list (faithful for strings
within the Basic Latin and Latin-1 ranges; every name in this development
stays in range). -/
def pyLower (s : String) : String :=
  ⟨s.data.map pyToLowerChar⟩

/-- Modelled from `xlsxwriter`'s `add_worksheet` name validation: an empty
name is replaced by an auto-generated `Sheet<n>`; a name longer than 31
characters or containing a forbidden character raises
`InvalidWorksheetName`; a name equal (case-insensitively) to an existing
sheet's name raises `DuplicateWorksheetName`.  No truncation or character
sanitization is performed.  Returns the final sheet name. -/
def checkSheetName (wb : Workbook) (name : String) : Except ConvError String :=
  let name := if name = "" then "Sheet" ++ toString (wb.sheets.length + 1) else name
  if 31 < name.length then .error .invalidSheetName
  else if name.data.any (fun c => invalidSheetChars.contains c) then .error .invalidSheetName
  else if wb.sheets.any (fun ws => pyLower ws.name == pyLower name) then .error .duplicateSheetName
  else .ok name

/-- Python `row[col_number]`: the cell at a column index, an `IndexError`
when the index is out of range. -/
def cellAt (row : List Cell) (c : Nat) : Except ConvError Cell :=
  match row.get? c with
  | some v => .ok v
  | none => .error .indexError

/-- Inner loop of `write_table_to_workbook`: write row `r`'s cells at the
column indices `cols`, in order. -/
def writeRowCells (r : Nat) (row : List Cell) : List Nat → Except ConvError (List (Nat × Nat × Cell))
  | [] => .ok []
  | c :: cs =>
    match cellAt row c with
    | .error e => .error e
    | .ok v =>
      match writeRowCells r row cs with
      | .error e => .error e
      | .ok rest => .ok ((r, c, v) :: rest)

/-- Outer loop of `write_table_to_workbook`: `for row_number, row in
enumerate(rows)`, writing every row at the column indices `0..n-1`. -/
def writeRows (r : Nat) (rows : List (List Cell)) (n : Nat) : Except ConvError (List (Nat × Nat × Cell)) :=
  match rows with
  | [] => .ok []
  | row :: rest =>
    match writeRowCells r row (List.range n) with
    | .error e => .error e
    | .ok block =>
      match writeRows (r + 1) rest n with
      | .error e => .error e
      | .ok tail => .ok (block ++ tail)

/-- Embedding of `Converter.write_table_to_workbook` (source lines 262-284):
`workbook.add_worksheet(worksheet_name)` (name checks, no sanitization),
then `cols = range(len(table[0]))` (an `IndexError` on an empty table), then
the row-major cell loop.  On success the workbook gains one sheet holding
exactly the written cells. -/
def write_table_to_workbook (wb : Workbook) (table : List (List Cell)) (worksheet_name : String) :
    Except ConvError Workbook :=
  match checkSheetName wb worksheet_name with
  | .error e => .error e
  | .ok sname =>
    match table with
    | [] => .error .indexError
    | t0 :: _ =>
      match writeRows 0 table t0.length with
      | .error e => .error e
      | .ok cells => .ok ⟨wb.sheets ++ [⟨sname, cells⟩]⟩

/-! ### Double-precision progress arithmetic

The source emits `i / len(cleaned_names) * 100` through the int-typed
signal `update_prog`.  `i / N` is CPython float true division (the
correctly rounded IEEE-754 binary64 quotient), `* 100` is a correctly
rounded binary64 product, and the int-typed signal truncates.  The model
implements round-to-nearest-even over `Nat` mantissas. -/

/-- Number of binary digits of `n`, by fuel recursion on a halving chain.
The fuel `128` makes it exact for every `n < 2 ^ 128`, far beyond any
table count a CPython list can hold. -/
def nbitsAux : Nat → Nat → Nat
  | 0, _ => 0
  | fuel + 1, n => if n = 0 then 0 else nbitsAux fuel (n / 2) + 1

/-- Number of binary digits of `n` (`nbits 0 = 0`, `nbits 1 = 1`, ...). -/
def nbits (n : Nat) : Nat := nbitsAux 128 n

/-- Round the positive rational `p / q` (`p, q ≥ 1`) to IEEE-754 binary64
with round-to-nearest-even, returned as `(m, e)` with `2^52 ≤ m < 2^53`
and value `m * 2^e` (normal range assumed: the program's inputs are table
indices and counts, far inside it).  The quotient is first computed with
three guard bits (`m0` has 56 or 57 digits), then the low bits plus the
division remainder decide the rounding: round up when the round bit is set
and either a lower bit, the remainder, or the kept mantissa's parity (the
even-tie rule) demands it. -/
def rnRat (p q : Nat) : Nat × Int :=
  let s : Int := 56 + (nbits q : Int) - (nbits p : Int)
  let a := p * 2 ^ s.toNat
  let b := q * 2 ^ (-s).toNat
  let m0 := a / b
  let r := a % b
  let drop := nbits m0 - 53
  let m1 := m0 / 2 ^ drop
  let rb := m0 / 2 ^ (drop - 1) % 2
  let m2 := if rb = 1 ∧ (m0 % 2 ^ (drop - 1) ≠ 0 ∨ r ≠ 0 ∨ m1 % 2 = 1) then m1 + 1 else m1
  if m2 = 2 ^ 53 then (2 ^ 52, (drop : Int) - s + 1) else (m2, (drop : Int) - s)

/-- Modelled from CPython: the value the int-typed signal delivers for
`i / n * 100` — the binary64 quotient `i / n`, times `100` as a binary64
product (rounding `100 * m` back to 53 bits), truncated to an integer.
`i = 0` gives exactly `0.0`; `n = 0` is unreachable (the loop is empty). -/
def pyProgress (i n : Nat) : Nat :=
  if i = 0 then 0
  else if n = 0 then 0
  else
    let (m1, e1) := rnRat i n
    let (m2, e2) := rnRat (100 * m1) 1
    let e := e1 + e2
    if 0 ≤ e then m2 * 2 ^ e.toNat else m2 / 2 ^ (-e).toNat

/-- Modelled from `xlsxwriter`'s `Workbook.close`: if no worksheet was ever
added, `close` adds one default blank sheet (auto-named `Sheet1`) so the
file is a valid workbook; otherwise the workbook is written as is. -/
def closeWorkbook (wb : Workbook) : Workbook :=
  if wb.sheets.isEmpty then ⟨[⟨"Sheet1", []⟩]⟩ else wb

/-! ### The export run (`Converter.run`) -/

/-- Observable actions of `Converter.run`, in order: a `write_table_to_workbook`
call that created the sheet of a table, the three Qt signal emissions
(`update_prog`, `wait`, `done`), and `workbook.close()`. -/
inductive Event where
  | sheet (name : String)
  | progress (p : Nat)
  | wait
  | close
  | done
deriving DecidableEq

/-- How a run ends: falling off the end of `run` (success), `sys.exit()`
after observing the stop flag (cancelled), or an uncaught exception
(failed).  In every case the workbook object reached at that point is
recorded; only a successful run has closed it. -/
inductive Outcome where
  | success (wb : Workbook)
  | cancelled (wb : Workbook)
  | failed (wb : Workbook) (e : ConvError)
deriving DecidableEq

/-- Event trace plus final outcome of one `Converter.run`. -/
structure RunResult where
  events : List Event
  outcome : Outcome
deriving DecidableEq

/-- Character-list core of Python `str.startswith`. -/
def listStartsWith : List Char → List Char → Bool
  | _, [] => true
  | [], _ :: _ => false
  | c :: cs, p :: ps => c == p && listStartsWith cs ps

/-- Python `s.startswith(pre)`. -/
def pyStartsWith (s pre : String) : Bool :=
  listStartsWith s.data pre.data

/-- Embedding of source lines 185-193: list the names from `sqlite_master`
(catalog order) and drop every name starting with `"sqlite"`. -/
def cleanedNames (db : List Table) : List String :=
  (db.map Table.name).filter (fun n => !(pyStartsWith n "sqlite"))

/-- Loop body of `Converter.run` (source lines 195-214).  `flag i` is the
value of `self._stopped` observed by the `self.stopped()` check that follows
table `i`'s write and progress emission; per table the loop selects, writes,
emits the double-precision value of `i / N * 100` through the int-typed
signal (`pyProgress`), then checks the flag and calls `sys.exit()` when it
is set.  After the loop: `wait` emission, `workbook.close()` (adding the
default sheet if none exist), `done` emission. -/
def runLoop (db : List Table) (flag : Nat → Bool) (n : Nat) :
    List String → Nat → Workbook → RunResult
  | [], _, wb => ⟨[.wait, .close, .done], .success (closeWorkbook wb)⟩
  | name :: rest, i, wb =>
    match select_table db name with
    | .error e => ⟨[], .failed wb e⟩
    | .ok table =>
      match write_table_to_workbook wb table name with
      | .error e => ⟨[], .failed wb e⟩
      | .ok wb2 =>
        if flag i then
          ⟨[.sheet name, .progress (pyProgress i n)], .cancelled wb2⟩
        else
          let r := runLoop db flag n rest (i + 1) wb2
          ⟨.sheet name :: .progress (pyProgress i n) :: r.events, r.outcome⟩

/-- Embedding of `Converter.run` (source lines 171-214): open the workbook,
enumerate the cleaned table names and run the export loop from table 0 on
the empty workbook. -/
def run (db : List Table) (flag : Nat → Bool) : RunResult :=
  runLoop db flag (cleanedNames db).length (cleanedNames db) 0 ⟨[]⟩

/-! ### Trace observations -/

/-- Payloads of the progress notifications of a trace, in emission order. -/
def progressValues (evs : List Event) : List Nat :=
  evs.filterMap (fun e => match e with | .progress p => some p | _ => none)

/-- Whether an event is a sheet-writer call. -/
def Event.isSheet : Event → Bool
  | .sheet _ => true
  | _ => false

/-- Number of sheet-writer calls in a trace. -/
def sheetEvents (evs : List Event) : Nat :=
  (evs.filter Event.isSheet).length

/-- Whether an outcome is a successful completion. -/
def Outcome.isSuccess : Outcome → Bool
  | .success _ => true
  | _ => false

/-- The workbook the run ended on. -/
def Outcome.workbook : Outcome → Workbook
  | .success wb => wb
  | .cancelled wb => wb
  | .failed wb _ => wb

/-- Number of worksheets of the workbook the run ended on. -/
def Outcome.sheetCount : Outcome → Nat
  | .success wb => wb.sheets.length
  | .cancelled wb => wb.sheets.length
  | .failed wb _ => wb.sheets.length

/-- Cells of row `r` of a written sheet, in column order: the values of the
`(row, column, value)` triples whose row index is `r` (the write loop emits
them in increasing column order). -/
def rowCells (cells : List (Nat × Nat × Cell)) (r : Nat) : List Cell :=
  (cells.filter (fun c => c.1 == r)).map (fun c => c.2.2)

/-! ### Concrete test databases -/

/-- The `users` table of the spec's concrete scenario. -/
def usersTable : Table :=
  ⟨"users", ["id", "name"], [[Cell.int 1, Cell.text "Ann"], [Cell.int 2, Cell.text "Bo"]]⟩

/-- The `logs` table of the spec's concrete scenario. -/
def logsTable : Table :=
  ⟨"logs", ["id", "msg"], [[Cell.int 1, Cell.text "ok"]]⟩

/-- A two-table source database. -/
def db2 : List Table := [usersTable, logsTable]

/-- A source database whose only table is a user table named `sqlitedata`
(legal in SQLite: only the `sqlite_` name space is reserved). -/
def dbSqliteUser : List Table := [⟨"sqlitedata", ["c"], []⟩]

/-- A source database with 100 small tables named `t0` to `t99`: plain
ASCII, pairwise distinct also case-insensitively, none reserved, none
quote-bearing, all within the sheet-name rules. -/
def db100 : List Table :=
  (List.range 100).map (fun k => ⟨"t" ++ toString k, ["c"], []⟩)

/-- A 32-character sheet name, one character over the xlsx limit. -/
def name32 : String := String.mk (List.replicate 32 'a')

/-- The workbook produced by exporting `usersTable` alone into an empty
workbook. -/
def wbUsers : Workbook :=
  ⟨[⟨"users", [(0, 0, Cell.text "id"), (0, 1, Cell.text "name"),
      (1, 0, Cell.int 1), (1, 1, Cell.text "Ann"),
      (2, 0, Cell.int 2), (2, 1, Cell.text "Bo")]⟩]⟩

/-! ## Supporting lemmas -/

theorem scanQuoted_append_close (l : List Char) (h : squote ∉ l) :
    scanQuoted (l ++ [squote]) = some l := by
  induction l with
  | nil => simp [scanQuoted]
  | cons c t ih =>
    have hc : ¬ c = squote := fun hc => h (hc ▸ List.mem_cons_self c t)
    have ht : squote ∉ t := fun hm => h (List.mem_cons_of_mem c hm)
    rw [scanQuoted.eq_def]
    simp [hc, ih ht]

theorem dropKeyword_append (p r : List Char) : dropKeyword p (p ++ r) = some r := by
  induction p with
  | nil => simp [dropKeyword]
  | cons c t ih => simp [dropKeyword, ih]

theorem mkSelectQuery_data (name : String) :
    (mkSelectQuery name).data = sqlSelectHead ++ (squote :: (name.data ++ [squote])) := by
  show (("SELECT * FROM " ++ String.singleton squote ++ name) ++ String.singleton squote).data = _
  simp only [String.data_append, sqlSelectHead]
  simp [String.singleton]

theorem checkSheetName_ok_name (wb : Workbook) (name s : String) (hne : name ≠ "")
    (h : checkSheetName wb name = .ok s) : s = name := by
  simp only [checkSheetName, if_neg hne] at h
  split at h
  · simp at h
  · split at h
    · simp at h
    · split at h
      · simp at h
      · injection h with h
        exact h.symm

theorem write_ok_inv (wb : Workbook) (table : List (List Cell)) (name : String) (wb' : Workbook)
    (h : write_table_to_workbook wb table name = .ok wb') :
    ∃ sname t0 rest cells, checkSheetName wb name = .ok sname ∧ table = t0 :: rest ∧
      writeRows 0 table t0.length = .ok cells ∧ wb' = ⟨wb.sheets ++ [⟨sname, cells⟩]⟩ := by
  unfold write_table_to_workbook at h
  split at h
  · simp at h
  · rename_i sname hcheck
    split at h
    · simp at h
    · rename_i t0 rest
      split at h
      · simp at h
      · rename_i cells hrows
        injection h with h
        exact ⟨sname, t0, rest, cells, hcheck, rfl, hrows, h.symm⟩

theorem cellAt_ok_inv (row : List Cell) (c : Nat) (v : Cell) (h : cellAt row c = .ok v) :
    c < row.length ∧ row.get? c = some v := by
  unfold cellAt at h
  split at h
  · rename_i w hw
    injection h with h
    subst h
    exact ⟨(List.get?_eq_some.mp hw).1, hw⟩
  · simp at h

theorem cellAt_lt (row : List Cell) (c : Nat) (hc : c < row.length) :
    cellAt row c = .ok ((row.get? c).getD Cell.null) := by
  unfold cellAt
  obtain ⟨v, hv⟩ : ∃ v, row.get? c = some v := by
    cases hg : row.get? c
    · exact absurd (List.get?_eq_none.mp hg) (Nat.not_le.mpr hc)
    · exact ⟨_, rfl⟩
  rw [hv]
  rfl

theorem writeRowCells_ok (r : Nat) (row : List Cell) (cols : List Nat)
    (h : ∀ c ∈ cols, c < row.length) :
    writeRowCells r row cols = .ok (cols.map (fun c => (r, c, (row.get? c).getD Cell.null))) := by
  induction cols with
  | nil => rfl
  | cons c cs ih =>
    unfold writeRowCells
    rw [cellAt_lt row c (h c (List.mem_cons_self c cs))]
    rw [ih (fun x hx => h x (List.mem_cons_of_mem c hx))]
    rfl

theorem writeRowCells_ok_inv (r : Nat) (row : List Cell) (cols : List Nat) :
    ∀ block, writeRowCells r row cols = .ok block →
      (∀ c ∈ cols, c < row.length) ∧
        block = cols.map (fun c => (r, c, (row.get? c).getD Cell.null)) := by
  induction cols with
  | nil =>
    intro block h
    injection h with h
    exact ⟨by simp, h.symm⟩
  | cons c cs ih =>
    intro block h
    unfold writeRowCells at h
    split at h
    · simp at h
    · rename_i v hv
      split at h
      · simp at h
      · rename_i tl htl
        injection h with h
        obtain ⟨hc, hvv⟩ := cellAt_ok_inv row c v hv
        obtain ⟨hall, hblock⟩ := ih tl htl
        subst hblock
        refine ⟨?_, ?_⟩
        · intro x hx
          rcases List.mem_cons.mp hx with hx | hx
          · exact hx ▸ hc
          · exact hall x hx
        · rw [← h, List.map_cons, hvv]
          rfl

theorem writeRowCells_err (r : Nat) (row : List Cell) (cols : List Nat)
    (hx : ∃ c ∈ cols, row.length ≤ c) :
    writeRowCells r row cols = .error .indexError := by
  induction cols with
  | nil =>
    obtain ⟨c, hc, _⟩ := hx
    exact absurd hc (List.not_mem_nil c)
  | cons c cs ih =>
    unfold writeRowCells
    by_cases hc : c < row.length
    · rw [cellAt_lt row c hc]
      obtain ⟨c', hc', hl'⟩ := hx
      have hcs : c' ∈ cs := by
        rcases List.mem_cons.mp hc' with h | h
        · exact absurd (h ▸ hl') (Nat.not_le.mpr hc)
        · exact h
      rw [ih ⟨c', hcs, hl'⟩]
    · have hnone : row.get? c = none := List.get?_eq_none.mpr (Nat.not_lt.mp hc)
      have : cellAt row c = .error .indexError := by
        unfold cellAt
        rw [hnone]
      rw [this]

theorem rowCells_append (a b : List (Nat × Nat × Cell)) (k : Nat) :
    rowCells (a ++ b) k = rowCells a k ++ rowCells b k := by
  unfold rowCells
  rw [List.filter_append, List.map_append]

theorem rowCells_block (n r k : Nat) (f : Nat → Cell) :
    rowCells ((List.range n).map (fun c => (r, c, f c))) k =
      if r = k then (List.range n).map f else [] := by
  unfold rowCells
  rw [List.filter_map]
  have hcomp : ((fun c : Nat × Nat × Cell => c.1 == k) ∘ (fun c : Nat => (r, c, f c))) =
      fun _ : Nat => r == k := rfl
  rw [hcomp]
  by_cases hrk : r = k
  · simp [hrk, List.map_map]
  · simp [hrk]

theorem range_map_take (row : List Cell) (n : Nat) (h : ∀ c ∈ List.range n, c < row.length) :
    (List.range n).map (fun c => (row.get? c).getD Cell.null) = row.take n := by
  induction n with
  | zero => simp
  | succ m ih =>
    have hm : m < row.length := h m (List.mem_range.mpr (Nat.lt_succ_self m))
    obtain ⟨v, hv⟩ : ∃ v, row.get? m = some v := by
      cases hg : row.get? m
      · exact absurd (List.get?_eq_none.mp hg) (Nat.not_le.mpr hm)
      · exact ⟨_, rfl⟩
    have hv2 : row[m]? = some v := by rw [← List.get?_eq_getElem?]; exact hv
    rw [List.range_succ, List.map_append,
      ih (fun c hc => h c (List.mem_range.mpr (Nat.lt_succ_of_lt (List.mem_range.mp hc)))),
      List.take_succ, hv2]
    simp [hv, hv2]

theorem writeRows_ok_inv (n : Nat) (rows : List (List Cell)) :
    ∀ (r : Nat) (cells : List (Nat × Nat × Cell)), writeRows r rows n = .ok cells →
      ∀ k, rowCells cells k =
        if r ≤ k ∧ k < r + rows.length then ((rows.getD (k - r) []).take n) else [] := by
  induction rows with
  | nil =>
    intro r cells h k
    unfold writeRows at h
    injection h with h
    subst h
    rw [if_neg (by simp only [List.length_nil]; omega)]
    rfl
  | cons row rest ih =>
    intro r cells h k
    unfold writeRows at h
    split at h
    · simp at h
    · rename_i block hblock
      split at h
      · simp at h
      · rename_i tail htail
        injection h with h
        subst h
        obtain ⟨hall, hb⟩ := writeRowCells_ok_inv r row (List.range n) block hblock
        subst hb
        rw [rowCells_append, rowCells_block n r k (fun c => (row.get? c).getD Cell.null),
          range_map_take row n hall, ih (r + 1) tail htail k]
        simp only [List.length_cons]
        by_cases hrk : r = k
        · subst hrk
          rw [if_pos rfl, if_neg (by omega), if_pos (by omega)]
          simp
        · rw [if_neg hrk]
          by_cases hcond : r + 1 ≤ k ∧ k < r + 1 + rest.length
          · rw [if_pos hcond, if_pos (by omega)]
            have hkr : k - r = (k - (r + 1)) + 1 := by omega
            rw [hkr]
            simp
          · rw [if_neg hcond, if_neg (by omega)]
            simp

theorem writeRows_short (n : Nat) (rows : List (List Cell)) :
    ∀ r, (∃ row ∈ rows, row.length < n) → writeRows r rows n = .error .indexError := by
  induction rows with
  | nil =>
    intro r hx
    obtain ⟨row, hr, _⟩ := hx
    exact absurd hr (List.not_mem_nil row)
  | cons row rest ih =>
    intro r hx
    unfold writeRows
    by_cases hr : row.length < n
    · rw [writeRowCells_err r row (List.range n)
        ⟨row.length, List.mem_range.mpr hr, Nat.le_refl _⟩]
    · rw [writeRowCells_ok r row (List.range n)
        (fun c hc => Nat.lt_of_lt_of_le (List.mem_range.mp hc) (Nat.not_lt.mp hr))]
      obtain ⟨row', hr', hl'⟩ := hx
      have hrest : row' ∈ rest := by
        rcases List.mem_cons.mp hr' with h | h
        · exact absurd (h ▸ hl') hr
        · exact h
      rw [ih (r + 1) ⟨row', hrest, hl'⟩]

/-! ## Claim C2 -/

/-- Claim C2 (code bug): the source intends to strip a recognised database
extension and append `.xlsx`, but `isinstance(check_extension, list)` tests
a `str` against `list` and is always false, so the stripping branch is dead:
every path, recognised or not, gets `.xlsx` appended to the unchanged
original path.  At the failing input `"data.db"` the claim requires
`"data.xlsx"`; the code yields `"data.db.xlsx"`. -/
theorem save_path_never_strips_extension_bug :
    set_save_path "data.db" = "data.db.xlsx" ∧ ∀ fp : String, set_save_path fp = fp ++ ".xlsx" :=
  ⟨rfl, fun _ => rfl⟩

/-! ## Claim C3 -/

/-- Claim C3 (counterexample): at a path whose file does not exist but whose
directory is writable, `create_connection` succeeds (the driver creates the
database file lazily) instead of failing as the claim requires. -/
theorem connect_missing_file_succeeds_cex :
    (create_connection ⟨false, true, true, true⟩).isSome = true ∧
      FileSys.fileExists ⟨false, true, true, true⟩ = false ∧
      FileSys.validDatabase ⟨false, true, true, true⟩ = true := by
  decide

/-- Claim C3 (amended): `create_connection` yields a connection exactly when
the OS-level open or create succeeds — a missing file in a writable
directory connects fine, and the content is never validated — and on a
driver error it swallows the exception and returns `none` rather than
raising a `ConnectionError`. -/
theorem create_connection_amended (fs : FileSys) (b : Bool) :
    ((create_connection fs).isSome = (if fs.fileExists then fs.readable else fs.dirWritable)) ∧
      create_connection { fs with validDatabase := b } = create_connection fs := by
  obtain ⟨fe, r, d, v⟩ := fs
  cases fe <;> cases r <;> cases d <;> cases v <;> cases b <;> decide

/-! ## Claim C8 -/

/-- Claim C8 (counterexample): a catalog name consisting of a single quote
is spliced unescaped into `SELECT * FROM '<name>'`, producing a malformed
quoted literal: the query is rejected with a syntax error. -/
theorem quoted_name_syntax_error_cex :
    parseQuery (mkSelectQuery (String.singleton squote)) = none := by
  decide

/-- Claim C8 (amended): the interpolation `"SELECT * FROM '{}'"` tolerates
spaces and any other characters in a table name except the single quote:
for every quote-free name the query is well-formed and scans exactly the
named table.  Quote-bearing names are spliced verbatim and are not safely
handled: a lone quote yields a query that is rejected with a syntax error
(the counterexample), while a name whose quotes happen to come doubled,
such as `a''b`, yields a well-formed query that scans the *different*
table `a'b` (second conjunct) — wrong table, not a syntax error. -/
theorem select_query_wellformed_without_quote (name : String) (h : squote ∉ name.data) :
    parseQuery (mkSelectQuery name) = some name ∧
      parseQuery (mkSelectQuery (String.mk ['a', squote, squote, 'b'])) =
        some (String.mk ['a', squote, 'b']) := by
  constructor
  · rw [parseQuery, mkSelectQuery_data, dropKeyword_append]
    simp only [parseSingleQuoted, if_pos rfl, scanQuoted_append_close name.data h,
      Option.map_some']
    cases name
    rfl
  · decide

/-- Witness for the amended claim C8 at a name containing a space. -/
theorem select_query_wellformed_without_quote_w :
    squote ∉ "my table".data ∧ parseQuery (mkSelectQuery "my table") = some "my table" :=
  ⟨by decide, (select_query_wellformed_without_quote "my table" (by decide)).1⟩

/-! ## Claim C9 -/

/-- Claim C9 (counterexample): at a 32-character table name the claimed
silent truncation does not happen: `write_table_to_workbook` passes the
name through unchanged and the modelled `add_worksheet` raises
`InvalidWorksheetName`, so no sheet is created at all. -/
theorem long_name_not_truncated_cex :
    write_table_to_workbook ⟨[]⟩ [[Cell.text "c"]] name32 = .error .invalidSheetName ∧
      name32.length = 32 := by
  decide

/-- Claim C9 (amended): `write_table_to_workbook` performs no truncation or
sanitization at all: whenever it succeeds the new sheet carries the table
name verbatim, and a name over the 31-character xlsx limit makes the write
fail with `InvalidWorksheetName` — the condition is reported as an error,
never silently corrected. -/
theorem sheet_name_passthrough_amended (wb : Workbook) (table : List (List Cell)) (name : String)
    (hne : name ≠ "") :
    (∀ wb', write_table_to_workbook wb table name = .ok wb' →
        wb'.sheets.map Worksheet.name = wb.sheets.map Worksheet.name ++ [name]) ∧
      (31 < name.length → write_table_to_workbook wb table name = .error .invalidSheetName) := by
  constructor
  · intro wb' h
    obtain ⟨sname, t0, rest, cells, hcheck, htab, hrows, hwb⟩ := write_ok_inv wb table name wb' h
    subst hwb
    simp [checkSheetName_ok_name wb name sname hne hcheck]
  · intro hlen
    have hcheck : checkSheetName wb name = .error .invalidSheetName := by
      simp only [checkSheetName, if_neg hne]
      rw [if_pos hlen]
    unfold write_table_to_workbook
    rw [hcheck]

/-- Witness for the amended claim C9 at the scenario `users` sheet. -/
theorem sheet_name_passthrough_amended_w :
    List.map Worksheet.name wbUsers.sheets =
      List.map Worksheet.name (Workbook.sheets ⟨[]⟩) ++ ["users"] :=
  (sheet_name_passthrough_amended ⟨[]⟩ (selectRows usersTable) "users" (by decide)).1
    wbUsers (by decide)

/-! ## Claim C10 -/

/-- Claim C10 (confirmed): `write_table_to_workbook` takes the column count
from the header row (`cols = range(len(table[0]))`) for every row of the
table: when all rows are at least as wide as the header, each written sheet
row is the source row truncated to the header width (extra trailing cells
silently dropped); and a row shorter than the header makes the write fail
with an out-of-range `IndexError` instead of completing with a partial
row (provided the sheet name itself was accepted). -/
theorem write_uses_header_width (wb : Workbook) (name : String) (t0 : List Cell)
    (rest : List (List Cell)) :
    ((∀ row ∈ t0 :: rest, t0.length ≤ row.length) →
      ∀ wb', write_table_to_workbook wb (t0 :: rest) name = .ok wb' →
        ∀ k, k < (t0 :: rest).length →
          rowCells ((wb'.sheets.getLastD ⟨"", []⟩).cells) k =
            ((t0 :: rest).getD k []).take t0.length) ∧
    ((∃ row ∈ t0 :: rest, row.length < t0.length) →
      ∀ s, checkSheetName wb name = .ok s →
        write_table_to_workbook wb (t0 :: rest) name = .error .indexError) := by
  constructor
  · intro hall wb' hok k hk
    obtain ⟨sname, t0', rest', cells, hcheck, htab, hrows, hwb⟩ :=
      write_ok_inv wb (t0 :: rest) name wb' hok
    injection htab with h1 h2
    subst h1
    subst h2
    subst hwb
    simp only [List.getLastD_concat]
    rw [writeRows_ok_inv t0.length (t0 :: rest) 0 cells hrows k,
      if_pos ⟨Nat.zero_le k, by omega⟩, Nat.sub_zero]
  · intro hex s hcheck
    unfold write_table_to_workbook
    rw [hcheck]
    simp [writeRows_short t0.length (t0 :: rest) 0 hex]

/-- Witness for claim C10: a wide data row is truncated to the header width
on success, and a narrow data row turns the whole write into an
`IndexError`. -/
theorem write_uses_header_width_w :
    rowCells ((Workbook.sheets ⟨[⟨"s", [(0, 0, Cell.text "h"), (1, 0, Cell.int 1)]⟩]⟩).getLastD
        ⟨"", []⟩).cells 1 =
      (([Cell.text "h"] :: [[Cell.int 1, Cell.int 2]]).getD 1 []).take [Cell.text "h"].length ∧
    write_table_to_workbook ⟨[]⟩ ([Cell.text "a", Cell.text "b"] :: [[Cell.int 1]]) "s" =
      .error .indexError :=
  ⟨(write_uses_header_width ⟨[]⟩ "s" [Cell.text "h"] [[Cell.int 1, Cell.int 2]]).1
      (by decide) ⟨[⟨"s", [(0, 0, Cell.text "h"), (1, 0, Cell.int 1)]⟩]⟩ (by decide) 1 (by decide),
    (write_uses_header_width ⟨[]⟩ "s" [Cell.text "a", Cell.text "b"] [[Cell.int 1]]).2
      (by decide) "s" (by decide)⟩

/-! ## Claim C1 -/

/-- Claim C1 (confirmed): for a table whose data rows all align with its
column list (as a SQL result set does), the sheet written for it has row 0
equal to the column-name list in source order, and row `k + 1` equal to
data row `k` in source column order. -/
theorem sheet_rows_match_source (t : Table) (wb : Workbook) (name : String) (wb' : Workbook)
    (hlen : ∀ row ∈ t.rows, row.length = t.cols.length)
    (hok : write_table_to_workbook wb (selectRows t) name = .ok wb') :
    rowCells ((wb'.sheets.getLastD ⟨"", []⟩).cells) 0 = t.cols.map Cell.text ∧
      ∀ k row, t.rows.get? k = some row →
        rowCells ((wb'.sheets.getLastD ⟨"", []⟩).cells) (k + 1) = row := by
  obtain ⟨sname, t0, rest, cells, hcheck, htab, hrows, hwb⟩ :=
    write_ok_inv wb (selectRows t) name wb' hok
  subst hwb
  have htab' : (t.cols.map Cell.text) :: t.rows = t0 :: rest := htab
  injection htab' with h1 h2
  subst h1
  subst h2
  have hrc := writeRows_ok_inv (t.cols.map Cell.text).length (selectRows t) 0 cells hrows
  constructor
  · simp only [List.getLastD_concat]
    rw [hrc 0, if_pos ⟨Nat.le_refl 0, by simp [selectRows]⟩]
    simp [selectRows, List.take_length]
  · intro k row hrow
    have hk : k < t.rows.length := (List.get?_eq_some.mp hrow).1
    simp only [List.getLastD_concat]
    rw [hrc (k + 1), if_pos ⟨Nat.zero_le _, by simp only [selectRows, List.length_cons]; omega⟩]
    have hgd : (selectRows t).getD (k + 1 - 0) [] = row := by
      simp only [Nat.sub_zero, selectRows, List.getD_cons_succ]
      rw [List.getD_eq_getElem?_getD, ← List.get?_eq_getElem?, hrow]
      rfl
    rw [hgd]
    have hrl : row.length = (t.cols.map Cell.text).length := by
      rw [List.length_map]
      exact hlen row (List.get?_mem hrow)
    rw [← hrl, List.take_length]

/-- Witness for claim C1 at the spec's `users` scenario table. -/
theorem sheet_rows_match_source_w :
    rowCells ((wbUsers.sheets.getLastD ⟨"", []⟩).cells) 0 = usersTable.cols.map Cell.text ∧
      rowCells ((wbUsers.sheets.getLastD ⟨"", []⟩).cells) 1 = [Cell.int 1, Cell.text "Ann"] := by
  have h := sheet_rows_match_source usersTable ⟨[]⟩ "users" wbUsers (by decide) (by decide)
  exact ⟨h.1, h.2 0 [Cell.int 1, Cell.text "Ann"] (by decide)⟩

/-! ## Run-trace lemmas -/

theorem progressValues_nil : progressValues [] = [] := rfl

theorem progressValues_sheet (s : String) (l : List Event) :
    progressValues (.sheet s :: l) = progressValues l := rfl

theorem progressValues_progress (p : Nat) (l : List Event) :
    progressValues (.progress p :: l) = p :: progressValues l := rfl

theorem progressValues_wait (l : List Event) : progressValues (.wait :: l) = progressValues l := rfl

theorem progressValues_close (l : List Event) :
    progressValues (.close :: l) = progressValues l := rfl

theorem progressValues_done (l : List Event) : progressValues (.done :: l) = progressValues l := rfl

theorem progressValues_append (a b : List Event) :
    progressValues (a ++ b) = progressValues a ++ progressValues b :=
  List.filterMap_append a b _

theorem sheetEvents_sheet (s : String) (l : List Event) :
    sheetEvents (.sheet s :: l) = sheetEvents l + 1 := by
  simp [sheetEvents, List.filter, Event.isSheet]

theorem sheetEvents_progress (p : Nat) (l : List Event) :
    sheetEvents (.progress p :: l) = sheetEvents l := by
  simp [sheetEvents, List.filter, Event.isSheet]

theorem write_ok_length (wb : Workbook) (table : List (List Cell)) (name : String)
    (wb' : Workbook) (h : write_table_to_workbook wb table name = .ok wb') :
    wb'.sheets.length = wb.sheets.length + 1 := by
  obtain ⟨sname, t0, rest, cells, _, _, _, hwb⟩ := write_ok_inv wb table name wb' h
  subst hwb
  simp

theorem runLoop_progress (db : List Table) (flag : Nat → Bool) (n : Nat) (l : List String) :
    ∀ (i0 : Nat) (wb : Workbook) (j p : Nat),
      (progressValues (runLoop db flag n l i0 wb).events).get? j = some p →
      p = pyProgress (i0 + j) n := by
  induction l with
  | nil =>
    intro i0 wb j p h
    simp [runLoop, progressValues] at h
  | cons name rest ih =>
    intro i0 wb j p h
    unfold runLoop at h
    split at h
    · simp [progressValues] at h
    · rename_i table hsel
      split at h
      · simp [progressValues] at h
      · rename_i wb2 hwrite
        by_cases hf : flag i0
        · rw [if_pos hf] at h
          simp only [progressValues_sheet, progressValues_progress, progressValues_nil] at h
          cases j with
          | zero =>
            simp at h
            subst h
            simp
          | succ j' => simp at h
        · rw [if_neg hf] at h
          simp only [progressValues_sheet, progressValues_progress] at h
          cases j with
          | zero =>
            simp at h
            subst h
            simp
          | succ j' =>
            have hr := ih (i0 + 1) wb2 j' p (by simpa using h)
            have harg : (i0 + 1) + j' = i0 + (j' + 1) := by omega
            rw [harg] at hr
            exact hr

theorem runLoop_cancel (db : List Table) (flag : Nat → Bool) (n : Nat) (l : List String) :
    ∀ (i0 : Nat) (wb : Workbook) (j : Nat), i0 ≤ j → j < i0 + l.length → flag j = true →
      Event.close ∉ (runLoop db flag n l i0 wb).events ∧
        Event.done ∉ (runLoop db flag n l i0 wb).events ∧
        sheetEvents (runLoop db flag n l i0 wb).events ≤ j + 1 - i0 := by
  induction l with
  | nil =>
    intro i0 wb j h1 h2 h3
    simp only [List.length_nil, Nat.add_zero] at h2
    exact absurd h1 (Nat.not_le.mpr h2)
  | cons name rest ih =>
    intro i0 wb j h1 h2 h3
    unfold runLoop
    split
    · exact ⟨by simp, by simp, by simp [sheetEvents]⟩
    · rename_i table hsel
      split
      · exact ⟨by simp, by simp, by simp [sheetEvents]⟩
      · rename_i wb2 hwrite
        by_cases hf : flag i0
        · rw [if_pos hf]
          refine ⟨by simp, by simp, ?_⟩
          simp [sheetEvents, Event.isSheet]
          omega
        · rw [if_neg hf]
          have hij : i0 ≠ j := fun he => hf (he ▸ h3)
          have h2' : j < (i0 + 1) + rest.length := by
            simp only [List.length_cons] at h2
            omega
          obtain ⟨hc, hd, hs⟩ := ih (i0 + 1) wb2 j (by omega) h2' h3
          refine ⟨by simp [hc], by simp [hd], ?_⟩
          simp only [sheetEvents_sheet, sheetEvents_progress]
          omega

theorem runLoop_success (db : List Table) (flag : Nat → Bool) (n : Nat) (l : List String) :
    ∀ (i0 : Nat) (wb : Workbook),
      (runLoop db flag n l i0 wb).outcome.isSuccess = true →
      ∃ front wb',
        (runLoop db flag n l i0 wb).events = front ++ [.wait, .close, .done] ∧
          (runLoop db flag n l i0 wb).outcome = .success wb' ∧
          wb'.sheets.length =
            (if wb.sheets.length + l.length = 0 then 1 else wb.sheets.length + l.length) ∧
          progressValues front = (List.range' i0 l.length).map (fun i => pyProgress i n) ∧
          (∀ e ∈ front, (∃ s, e = .sheet s) ∨ (∃ p, e = .progress p)) := by
  induction l with
  | nil =>
    intro i0 wb h
    refine ⟨[], closeWorkbook wb, rfl, rfl, ?_, by simp [progressValues], by simp⟩
    unfold closeWorkbook
    by_cases hwb : wb.sheets.isEmpty
    · rw [if_pos hwb]
      have : wb.sheets.length = 0 := by
        rw [List.isEmpty_iff] at hwb
        simp [hwb]
      simp [this]
    · rw [if_neg hwb]
      have : wb.sheets.length ≠ 0 := by
        rw [List.isEmpty_iff] at hwb
        simpa [List.length_eq_zero] using hwb
      simp only [List.length_nil, Nat.add_zero]
      rw [if_neg this]
  | cons name rest ih =>
    intro i0 wb h
    unfold runLoop at h ⊢
    split at h <;> rename_i hsel
    · simp [Outcome.isSuccess] at h
    · rename_i table
      split at h <;> rename_i hwrite
      · simp [Outcome.isSuccess] at h
      · rename_i wb2
        by_cases hf : flag i0
        · rw [if_pos hf] at h
          simp [Outcome.isSuccess] at h
        · rw [if_neg hf] at h ⊢
          obtain ⟨front', wb', hev, hout, hlen, hprog, hcls⟩ := ih (i0 + 1) wb2 h
          refine ⟨.sheet name :: .progress (pyProgress i0 n) :: front', wb', ?_, ?_, ?_, ?_, ?_⟩
          · simp [hev]
          · exact hout
          · have hw2 := write_ok_length wb table name wb2 hwrite
            rw [hlen, hw2, List.length_cons]
            rw [if_neg (by omega), if_neg (by omega)]
            omega
          · rw [progressValues_sheet, progressValues_progress, hprog, List.length_cons,
              List.range'_succ i0 rest.length 1, List.map_cons]
          · intro e he
            rcases List.mem_cons.mp he with he | he
            · exact Or.inl ⟨name, he⟩
            rcases List.mem_cons.mp he with he | he
            · exact Or.inr ⟨pyProgress i0 n, he⟩
            · exact hcls e he

/-! ## Claim C4 -/

/-- Claim C4 (counterexample): with zero exportable tables the loop body
never runs and the stop flag is never observed: even with the flag set
before the run starts, the workbook is finalized (`close` is called) and
the `done` notification is emitted, contradicting the claim that once the
flag is set the job terminates without finalizing. -/
theorem cancel_zero_tables_finalizes_cex :
    Event.close ∈ (run [] (fun _ => true)).events ∧
      Event.done ∈ (run [] (fun _ => true)).events := by
  decide

/-- Claim C4 (amended): if the stop flag is observed set at the boundary
check following some table `j` of the run (`j` below the exported table
count), then no close happens, no done notification is emitted, and at
most tables `0..j` are written — the table being written when the flag
rises always completes, because the check sits after the write.  (With
zero tables, or a flag set only after the last check, the run finalizes
despite the flag; hence the boundary-side condition.) -/
theorem cancel_stops_at_boundary_amended (db : List Table) (flag : Nat → Bool) (j : Nat)
    (h1 : j < (cleanedNames db).length) (h2 : flag j = true) :
    Event.close ∉ (run db flag).events ∧ Event.done ∉ (run db flag).events ∧
      sheetEvents (run db flag).events ≤ j + 1 := by
  have h := runLoop_cancel db flag (cleanedNames db).length (cleanedNames db) 0 ⟨[]⟩ j
    (Nat.zero_le j) (by omega) h2
  simpa [run] using h

/-- Witness for the amended claim C4: flag raised before the first boundary
of a two-table run. -/
theorem cancel_stops_at_boundary_amended_w :
    Event.close ∉ (run db2 (fun _ => true)).events ∧
      Event.done ∉ (run db2 (fun _ => true)).events ∧
      sheetEvents (run db2 (fun _ => true)).events ≤ 1 :=
  cancel_stops_at_boundary_amended db2 (fun _ => true) 0 (by decide) rfl

/-! ## Claim C5 -/

/-- Claim C5 (counterexample): in the successful 100-table export the
progress notification after table 29 carries `28`, not the integer
truncation of `29 / 100 * 100 = 29`: the double rounding of `29 / 100`
makes the product `28.999999999999996`, one below the exact value. -/
theorem progress_exact_formula_cex :
    (run db100 (fun _ => false)).outcome.isSuccess = true ∧
      (progressValues (run db100 (fun _ => false)).events).get? 29 = some 28 ∧
      (cleanedNames db100).length = 100 ∧
      ¬ (28 = 29 * 100 / (cleanedNames db100).length) := by
  decide

/-- Claim C5 (amended): in every export of at least one table, the progress
value emitted after table `i` (the `i`-th progress notification of the
trace) equals the truncation of the double-precision evaluation of
`i / N * 100` — `float(i) / float(N)` rounded to nearest even, times `100`,
rounded again, truncated by the int-typed signal — which can fall one below
the exact `⌊i * 100 / N⌋` (`28` instead of `29` at `i = 29`, `N = 100`). -/
theorem progress_value_double_amended (db : List Table) (flag : Nat → Bool) (i p : Nat)
    (hN : 1 ≤ (cleanedNames db).length)
    (h : (progressValues (run db flag).events).get? i = some p) :
    p = pyProgress i (cleanedNames db).length := by
  have hr := runLoop_progress db flag (cleanedNames db).length (cleanedNames db) 0 ⟨[]⟩ i p
    (by simpa [run] using h)
  simpa using hr

/-- Witness for the amended claim C5: the second progress notification of
the two-table scenario run carries the double-precision value of
`1 / 2 * 100`, which is exactly `50`. -/
theorem progress_value_double_amended_w :
    (progressValues (run db2 (fun _ => false)).events).get? 1 = some 50 ∧
      50 = pyProgress 1 (cleanedNames db2).length :=
  ⟨by decide, progress_value_double_amended db2 (fun _ => false) 1 50 (by decide) (by decide)⟩

/-! ## Claim C6 -/

/-- Claim C6 (counterexample): the successful 100-table export emits `28`
for both the notification after table 28 (`28.000000000000004` truncated)
and the notification after table 29 (`28.999999999999996` truncated):
progress is re-delivered and not strictly increasing. -/
theorem progress_not_strictly_increasing_cex :
    (run db100 (fun _ => false)).outcome.isSuccess = true ∧
      (progressValues (run db100 (fun _ => false)).events).get? 28 = some 28 ∧
      (progressValues (run db100 (fun _ => false)).events).get? 29 = some 28 := by
  decide

/-- Claim C6 (amended): in a successful run the progress notifications are
exactly one per table in table order — the trace's progress-value list is
the double-precision formula evaluated at `0 .. N-1`, so none are skipped —
and the trace ends with `wait`, `close`, `done` in that order: `done` is
the last notification, emitted only after the workbook close, and neither
`close` nor `done` occurs earlier.  Strict monotonicity does not hold
(values repeat, e.g. `28` twice in a 100-table export). -/
theorem progress_per_table_done_last_amended (db : List Table) (flag : Nat → Bool)
    (hs : (run db flag).outcome.isSuccess = true) :
    progressValues (run db flag).events =
        (List.range (cleanedNames db).length).map
          (fun i => pyProgress i (cleanedNames db).length) ∧
      (run db flag).events.drop ((run db flag).events.length - 3) =
          [.wait, .close, .done] ∧
      Event.done ∉ (run db flag).events.take ((run db flag).events.length - 3) ∧
      Event.close ∉ (run db flag).events.take ((run db flag).events.length - 3) := by
  obtain ⟨front, wb', hev, hout, hlen, hprog, hcls⟩ :=
    runLoop_success db flag (cleanedNames db).length (cleanedNames db) 0 ⟨[]⟩
      (by simpa [run] using hs)
  have hrun : run db flag = runLoop db flag (cleanedNames db).length (cleanedNames db) 0 ⟨[]⟩ :=
    rfl
  rw [hrun, hev]
  have hsuf : progressValues [Event.wait, Event.close, Event.done] = [] := rfl
  have hl3 : (front ++ [Event.wait, Event.close, Event.done]).length - 3 = front.length := by
    simp
  refine ⟨?_, ?_, ?_, ?_⟩
  · rw [progressValues_append, hsuf, List.append_nil, hprog, List.range_eq_range']
  · rw [hl3, List.drop_left]
  · rw [hl3, List.take_left]
    intro hmem
    rcases hcls _ hmem with ⟨s, h67⟩ | ⟨p, h67⟩ <;> simp at h67
  · rw [hl3, List.take_left]
    intro hmem
    rcases hcls _ hmem with ⟨s, h67⟩ | ⟨p, h67⟩ <;> simp at h67

/-- Witness for the amended claim C6 on the two-table scenario run. -/
theorem progress_per_table_done_last_amended_w :
    progressValues (run db2 (fun _ => false)).events =
        (List.range (cleanedNames db2).length).map
          (fun i => pyProgress i (cleanedNames db2).length) ∧
      (run db2 (fun _ => false)).events.drop ((run db2 (fun _ => false)).events.length - 3) =
        [Event.wait, Event.close, Event.done] := by
  have h := progress_per_table_done_last_amended db2 (fun _ => false) (by decide)
  exact ⟨h.1, h.2.1⟩

/-! ## Claim C7 -/

/-- Claim C7 (counterexample): a database whose single user table is named
`sqlitedata` — not a system table, since only the `sqlite_` name space is
reserved — exports successfully, yet no sheet is ever written for it
(`startswith("sqlite")` filters it out) and the finalized workbook holds
only the blank default sheet that `close` adds to an empty workbook: not
one sheet per user table. -/
theorem sqlite_named_user_table_dropped_cex :
    (run dbSqliteUser (fun _ => false)).outcome.isSuccess = true ∧
      sheetEvents (run dbSqliteUser (fun _ => false)).events = 0 ∧
      ((run dbSqliteUser (fun _ => false)).outcome.workbook).sheets.map Worksheet.name =
        ["Sheet1"] ∧
      dbSqliteUser.length = 1 ∧
      pyStartsWith "sqlitedata" "sqlite_" = false := by
  decide

/-- Claim C7 (amended): for a source database of `N` tables none of whose
names start with the string `sqlite` (a strictly stronger condition than
having no system tables), a successful export produces a workbook with
exactly `N` sheets when `N ≥ 1`; when `N = 0` the finalized workbook
instead holds exactly one blank default sheet (`Sheet1`), added by the
workbook close. -/
theorem sheet_count_matches_tables_amended (db : List Table) (flag : Nat → Bool)
    (hs : (run db flag).outcome.isSuccess = true)
    (hn : ∀ t ∈ db, pyStartsWith t.name "sqlite" = false) :
    (db ≠ [] → (run db flag).outcome.sheetCount = db.length) ∧
      (db = [] → (run db flag).outcome.workbook = ⟨[⟨"Sheet1", []⟩]⟩) := by
  obtain ⟨front, wb', hev, hout, hlen, hprog, hcls⟩ :=
    runLoop_success db flag (cleanedNames db).length (cleanedNames db) 0 ⟨[]⟩
      (by simpa [run] using hs)
  have hrun : run db flag = runLoop db flag (cleanedNames db).length (cleanedNames db) 0 ⟨[]⟩ :=
    rfl
  have hclean : cleanedNames db = db.map Table.name := by
    unfold cleanedNames
    apply List.filter_eq_self.mpr
    intro a ha
    obtain ⟨t, ht, rfl⟩ := List.mem_map.mp ha
    simp [hn t ht]
  constructor
  · intro hdb
    rw [hrun, hout]
    simp only [Outcome.sheetCount]
    rw [hlen]
    have hlen0 : (cleanedNames db).length = db.length := by rw [hclean, List.length_map]
    have hne : db.length ≠ 0 := fun h0 => hdb (List.length_eq_zero.mp h0)
    simp only [List.length_nil, Nat.zero_add]
    rw [hlen0, if_neg hne]
  · intro hdb
    subst hdb
    rfl

/-- Witness for the amended claim C7 on the two-table scenario run. -/
theorem sheet_count_matches_tables_amended_w :
    (run db2 (fun _ => false)).outcome.sheetCount = 2 :=
  ((sheet_count_matches_tables_amended db2 (fun _ => false) (by decide) (by decide)).1
    (by decide)).trans rfl

end SQLite2Excel
